import Mathlib

/-!
# musl-compatibility.h: the preprocessor behaviour of the compatibility layer

The repository is one C header, `scirpts/rkrga/patch/musl-compatibility.h`.
Its behaviour is what the C preprocessor does with it: which `#define` lines
are executed in a given macro environment, which expansions they install and
which headers are included.

The embedding follows the header directive by directive.  A preprocessor state
is the macro table together with the trace of directives executed so far; a
conditional group (`#ifndef`, `#ifdef`, `#else`) becomes a conditional on the
macro table, `#define` updates the table, and `#include <...>` of a C library
header is recorded in the trace (the content of `<stdint.h>` and
`<sys/types.h>` belongs to the C library, not to this repository, so the macro
table changes only through the header's own `#define` lines).
-/

namespace MuslCompat

/-! ## Data model -/

/-- A macro definition: `params = none` for an object-like macro, `some ps` for
a function-like macro with parameter names `ps`; `body` is the replacement
list, one string per preprocessing token. -/
structure MacroDef where
  params : Option (List String)
  body : List String
deriving DecidableEq, Repr

/-- The macro table of a translation unit: defined names with their definitions. -/
abbrev Env := List (String × MacroDef)

/-- The definition currently bound to `n`, if `n` is defined. -/
def lookup (n : String) : Env → Option MacroDef
  | [] => none
  | (k, m) :: rest => if k = n then some m else lookup n rest

/-- The test made by `#ifdef n` / `#ifndef n`. -/
def isDefined (n : String) (env : Env) : Bool := (lookup n env).isSome

/-- The table without any binding of `n`. -/
def Env.remove (n : String) : Env → Env
  | [] => []
  | (k, m) :: rest => if k = n then Env.remove n rest else (k, m) :: Env.remove n rest

/-- The table after `#define n ...`: `n` is bound to `m`, every other binding
is kept.  If `n` was defined already, the new definition is the one in force
afterwards (a compiler reports such a redefinition and goes on with the new
replacement list). -/
def Env.define (n : String) (m : MacroDef) (env : Env) : Env :=
  (n, m) :: env.remove n

/-- What an inclusion of the header does that is visible from outside. -/
inductive Event where
  | defined (name : String)
  | included (header : String)
deriving DecidableEq, Repr

/-- Preprocessor state: macro table and the directives executed so far. -/
structure State where
  env : Env
  trace : List Event
deriving DecidableEq, Repr

/-! ## Directives -/

/-- The directive `#define n <m>`. -/
def define (n : String) (m : MacroDef) (s : State) : State :=
  ⟨s.env.define n m, s.trace ++ [Event.defined n]⟩

/-- The directive `#include <h>` for a C library header. -/
def includeSys (h : String) (s : State) : State :=
  ⟨s.env, s.trace ++ [Event.included h]⟩

/-- The group `#ifndef n ... #endif`. -/
def ifndef (n : String) (body : State → State) (s : State) : State :=
  if isDefined n s.env then s else body s

/-- The group `#ifdef n ... #endif`. -/
def ifdef (n : String) (body : State → State) (s : State) : State :=
  if isDefined n s.env then body s else s

/-- The group `#ifdef n ... #else ... #endif`. -/
def ifdefElse (n : String) (thn els : State → State) (s : State) : State :=
  if isDefined n s.env then thn s else els s

/-- An object-like macro with an empty replacement list (`#define X`). -/
def emptyDef : MacroDef := ⟨none, []⟩

/-- The replacement list `__attribute__((<a>))`. -/
def gccAttr (a : List String) : List String :=
  ["__attribute__", "(", "("] ++ a ++ [")", ")"]

/-! ## The header -/

/-- Lines 12-20: the linkage brackets, both under the one guard
`#ifndef __BEGIN_DECLS`, with the C++ and the plain C variant. -/
def declsBlock : State → State :=
  ifndef "__BEGIN_DECLS"
    (ifdefElse "__cplusplus"
      (fun s => define "__END_DECLS" ⟨none, ["\x7d"]⟩
        (define "__BEGIN_DECLS" ⟨none, ["extern", "\"C\"", "\x7b"]⟩ s))
      (fun s => define "__END_DECLS" emptyDef (define "__BEGIN_DECLS" emptyDef s)))

/-- Lines 26-111: the table of `#ifndef S` / `#define S E` / `#endif` groups,
in source order. -/
def cdefsTable : List (String × MacroDef) :=
  [ ("__GNUC_PREREQ", ⟨some ["maj", "min"],
      ["(", "(", "__GNUC__", "<<", "16", ")", "+", "__GNUC_MINOR__", ">=",
       "(", "(", "maj", ")", "<<", "16", ")", "+", "(", "min", ")", ")"]⟩),
    ("__predict_true", ⟨some ["exp"],
      ["__builtin_expect", "(", "(", "exp", ")", ",", "1", ")"]⟩),
    ("__predict_false", ⟨some ["exp"],
      ["__builtin_expect", "(", "(", "exp", ")", ",", "0", ")"]⟩),
    ("__unused", ⟨none, gccAttr ["__unused__"]⟩),
    ("__packed", ⟨none, gccAttr ["__packed__"]⟩),
    ("__aligned", ⟨some ["x"], gccAttr ["__aligned__", "(", "x", ")"]⟩),
    ("__section", ⟨some ["x"], gccAttr ["__section__", "(", "x", ")"]⟩),
    ("__deprecated", ⟨none, gccAttr ["__deprecated__"]⟩),
    ("__weak", ⟨none, gccAttr ["__weak__"]⟩),
    ("__strong", ⟨none, gccAttr ["__strong__"]⟩),
    ("__pure", ⟨none, gccAttr ["__pure__"]⟩),
    ("__const", ⟨none, gccAttr ["__const__"]⟩),
    ("__dead", ⟨none, gccAttr ["__noreturn__"]⟩),
    ("__malloc", ⟨none, gccAttr ["__malloc__"]⟩),
    ("__printflike", ⟨some ["fmtarg", "firstvararg"],
      gccAttr ["__format__", "(", "__printf__", ",", "fmtarg", ",", "firstvararg", ")"]⟩),
    ("__scanflike", ⟨some ["fmtarg", "firstvararg"],
      gccAttr ["__format__", "(", "__scanf__", ",", "fmtarg", ",", "firstvararg", ")"]⟩),
    ("__nonnull", ⟨some ["x"], gccAttr ["__nonnull__", "x"]⟩),
    ("__returns_twice", ⟨none, gccAttr ["__returns_twice__"]⟩),
    ("__always_inline", ⟨none, gccAttr ["__always_inline__"]⟩),
    ("__noinline", ⟨none, gccAttr ["__noinline__"]⟩),
    ("__wur", ⟨none, gccAttr ["__warn_unused_result__"]⟩) ]

/-- One table group: `#ifndef S` / `#define S E` / `#endif`. -/
def guardedDefine (p : String × MacroDef) : State → State :=
  ifndef p.1 (define p.1 p.2)

/-- A run of table groups, processed top to bottom. -/
def guardedDefines : List (String × MacroDef) → State → State
  | [], s => s
  | p :: t, s => guardedDefines t (guardedDefine p s)

/-- Lines 23-113: the table under its own guard `_SYS_CDEFS_H_`. -/
def cdefsBlock : State → State :=
  ifndef "_SYS_CDEFS_H_"
    (fun s => guardedDefines cdefsTable (define "_SYS_CDEFS_H_" emptyDef s))

/-- Lines 9-115: everything that depends on the activation flag `__MUSL__`. -/
def muslBlock : State → State :=
  ifdef "__MUSL__" (fun s => cdefsBlock (declsBlock s))

/-- The whole header, lines 1-121: the include guard (lines 1-2), the
activation block, then the two C library headers (lines 118-119). -/
def musl_compatibility_h : State → State :=
  ifndef "MUSL_COMPATIBILITY_H"
    (fun s => includeSys "sys/types.h" (includeSys "stdint.h"
      (muslBlock (define "MUSL_COMPATIBILITY_H" emptyDef s))))

/-- One inclusion of the header into a translation unit whose macro table is
`env`, with a fresh trace. -/
def includeHeader (env : Env) : State := musl_compatibility_h ⟨env, []⟩


/-! ## Macro invocation -/

/-- The argument bound to the token `t`, if `t` is one of the parameters. -/
def argFor : List String → List (List String) → String → Option (List String)
  | p :: ps, a :: as, t => if p = t then some a else argFor ps as t
  | _, _, _ => none

/-- Parameter substitution in a replacement list: every occurrence of a
parameter is replaced by the tokens of the corresponding argument, every other
token is copied.  (The replacement lists of this header use neither `#` nor
`##`.) -/
def substitute (ps : List String) (args : List (List String)) : List String → List String
  | [] => []
  | t :: ts =>
    (match argFor ps args t with
      | some a => a
      | none => [t]) ++ substitute ps args ts

/-- The tokens an invocation `M(args)` of the function-like macro `m` is
replaced by; `none` if `m` is object-like or the number of arguments is wrong. -/
def MacroDef.expand (m : MacroDef) (args : List (List String)) : Option (List String) :=
  match m.params with
  | none => none
  | some ps => if ps.length = args.length then some (substitute ps args m.body) else none

/-- The invocation `n(args)` in the macro table `env`. -/
def invoke (env : Env) (n : String) (args : List (List String)) : Option (List String) :=
  match lookup n env with
  | none => none
  | some m => m.expand args

/-! ## The expressions behind the function-like macros -/

/-- A store: the values of the variables of the program. -/
abbrev Store := String → Int

/-- C expressions, as far as the branch hints need them: constants, variables,
a side effect (`x++`), a comparison, parentheses and the compiler's
`__builtin_expect(e, c)`. -/
inductive CExpr where
  | lit (n : Int)
  | var (x : String)
  | postIncr (x : String)
  | less (a b : CExpr)
  | paren (e : CExpr)
  | expect (e c : CExpr)
deriving Repr

/-- Evaluation with side effects, left to right.  `__builtin_expect(e, c)`
evaluates its operands and has the value of `e` (the compiler's definition of
the builtin). -/
def CExpr.eval : CExpr → Store → Int × Store
  | .lit n, σ => (n, σ)
  | .var x, σ => (σ x, σ)
  | .postIncr x, σ => (σ x, fun y => if y = x then σ x + 1 else σ y)
  | .less a b, σ =>
    let (va, σ1) := a.eval σ
    let (vb, σ2) := b.eval σ1
    (if va < vb then 1 else 0, σ2)
  | .paren e, σ => e.eval σ
  | .expect e c, σ =>
    let (v, σ1) := e.eval σ
    let (_, σ2) := c.eval σ1
    (v, σ2)

/-- The token sequence an expression is written as. -/
def CExpr.render : CExpr → List String
  | .lit n => [toString n]
  | .var x => [x]
  | .postIncr x => [x, "++"]
  | .less a b => a.render ++ ["<"] ++ b.render
  | .paren e => ["("] ++ e.render ++ [")"]
  | .expect e c => ["__builtin_expect", "("] ++ e.render ++ [","] ++ c.render ++ [")"]

/-- Line 28, the replacement list of `__GNUC_PREREQ(maj, min)`:
`((__GNUC__ << 16) + __GNUC_MINOR__ >= ((maj) << 16) + (min))`, with the
compiler's `__GNUC__` and `__GNUC_MINOR__` as the first two arguments, in exact
integer arithmetic. -/
def __GNUC_PREREQ (gnuc gnuc_minor maj min : Nat) : Bool :=
  decide ((gnuc <<< 16) + gnuc_minor ≥ (maj <<< 16) + min)

/-! ## The vocabulary of the specification -/

/-- The macro names the layer exports, as the specification lists them. -/
def exportedNames : List String :=
  ["__BEGIN_DECLS", "__END_DECLS", "__GNUC_PREREQ", "__predict_true", "__predict_false",
   "__unused", "__packed", "__aligned", "__section", "__deprecated", "__weak", "__strong",
   "__pure", "__const", "__dead", "__malloc", "__printflike", "__scanflike", "__nonnull",
   "__returns_twice", "__always_inline", "__noinline", "__wur"]

/-- The specification's table of zero-argument attribute macros: macro name and
the attribute it stands for. -/
def zeroArgAttributes : List (String × String) :=
  [("__unused", "unused"), ("__packed", "packed"), ("__deprecated", "deprecated"),
   ("__weak", "weak"), ("__strong", "strong"), ("__pure", "pure"), ("__const", "const"),
   ("__dead", "noreturn"), ("__malloc", "malloc"), ("__always_inline", "always_inline"),
   ("__noinline", "noinline"), ("__wur", "warn_unused_result"),
   ("__returns_twice", "returns_twice")]

/-- A `#define n` executed by the header is new with respect to the macro table
`env` in which the inclusion started: the activation flag is defined, and
either `n` is one of the linkage brackets and `__BEGIN_DECLS` was undefined, or
the table guard `_SYS_CDEFS_H_` and `n` were undefined and `n` is the table
guard or a name of the table. -/
def NewDef (env : Env) (n : String) : Prop :=
  isDefined "__MUSL__" env = true ∧
  ((n = "__BEGIN_DECLS" ∧ isDefined "__BEGIN_DECLS" env = false) ∨
   (n = "__END_DECLS" ∧ isDefined "__BEGIN_DECLS" env = false) ∨
   (isDefined "_SYS_CDEFS_H_" env = false ∧ isDefined n env = false ∧
     (n = "_SYS_CDEFS_H_" ∨ isDefined n cdefsTable = true)))

/-! ## Sample translation units -/

/-- A translation unit that defines the activation flag and nothing else. -/
def freshMusl : Env := [("__MUSL__", emptyDef)]

/-- A sentinel definition: `#define S SENTINEL`. -/
def sentinel : MacroDef := ⟨none, ["SENTINEL"]⟩

/-- The activation flag, and `__END_DECLS` predefined without `__BEGIN_DECLS`. -/
def endDeclsOnly : Env := [("__MUSL__", emptyDef), ("__END_DECLS", sentinel)]

/-- The activation flag, and `__unused` predefined. -/
def unusedPredefined : Env := [("__MUSL__", emptyDef), ("__unused", sentinel)]

/-- The activation flag, and the table guard `_SYS_CDEFS_H_` already defined
(another `sys/cdefs.h` was seen before). -/
def cdefsSeen : Env := [("__MUSL__", emptyDef), ("_SYS_CDEFS_H_", emptyDef)]

/-- The header was included before the activation flag was defined: the
include guard and the flag are defined, the brackets are not. -/
def includedBeforeFlag : Env := [("MUSL_COMPATIBILITY_H", emptyDef), ("__MUSL__", emptyDef)]

/-- The activation flag in a C++ translation unit. -/
def freshMuslCxx : Env := [("__MUSL__", emptyDef), ("__cplusplus", ⟨none, ["201703L"]⟩)]

/-! ## Basic facts about the macro table -/

theorem lookup_remove (x n : String) (env : Env) :
    lookup x (env.remove n) = if x = n then none else lookup x env := by
  induction env with
  | nil => simp [lookup, Env.remove]
  | cons p rest ih =>
    obtain ⟨k, m⟩ := p
    by_cases hk : k = n
    · subst hk
      by_cases hx : x = k
      · subst hx; simp [Env.remove, ih]
      · have hx2 : ¬ k = x := fun h => hx h.symm
        simp [Env.remove, lookup, ih, hx, hx2]
    · by_cases hx : x = n
      · subst hx; simp [Env.remove, hk, lookup, ih]
      · simp [Env.remove, hk, lookup, ih, hx]

theorem lookup_define (x n : String) (m : MacroDef) (env : Env) :
    lookup x (env.define n m) = if n = x then some m else lookup x env := by
  unfold Env.define
  by_cases h : n = x
  · simp [lookup, h]
  · have h2 : ¬ x = n := fun e => h e.symm
    simp [lookup, h, h2, lookup_remove]

theorem isDefined_define (x n : String) (m : MacroDef) (env : Env) :
    isDefined x (env.define n m) = (decide (n = x) || isDefined x env) := by
  unfold isDefined
  rw [lookup_define]
  by_cases h : n = x <;> simp [h]

theorem isDefined_false_iff (x : String) (env : Env) :
    isDefined x env = false ↔ lookup x env = none := by
  unfold isDefined
  cases lookup x env <;> simp

theorem isDefined_of_lookup {x : String} {env : Env} {m : MacroDef}
    (h : lookup x env = some m) : isDefined x env = true := by
  simp [isDefined, h]

/-! ## The table groups -/

theorem guardedDefines_lookup (x : String) (t : List (String × MacroDef)) (s : State) :
    lookup x (guardedDefines t s).env
      = match lookup x s.env with
        | some v => some v
        | none => lookup x t := by
  induction t generalizing s with
  | nil => cases h : lookup x s.env <;> simp [guardedDefines, lookup, h]
  | cons p t ih =>
    obtain ⟨k, m⟩ := p
    rw [guardedDefines, ih]
    unfold guardedDefine ifndef
    by_cases hd : isDefined k s.env = true
    · simp only [hd, if_true]
      cases hx : lookup x s.env with
      | some v => rfl
      | none =>
        have hk : ¬ k = x := by
          intro e; subst e
          simp [isDefined, hx] at hd
        simp [lookup, hk]
    · simp only [hd]
      simp only [Bool.not_eq_true] at hd
      rw [isDefined_false_iff] at hd
      by_cases hk : k = x
      · subst hk
        simp [define, lookup_define, hd, lookup]
      · have hk2 : ¬ x = k := fun e => hk e.symm
        simp [define, lookup_define, lookup_remove, hk, hk2, lookup]

theorem guardedDefines_trace (t : List (String × MacroDef)) (s : State) :
    ∃ ds, (guardedDefines t s).trace = s.trace ++ ds ∧
      ∀ e ∈ ds, ∃ n, e = Event.defined n ∧ isDefined n s.env = false ∧ isDefined n t = true := by
  induction t generalizing s with
  | nil => exact ⟨[], by simp [guardedDefines]⟩
  | cons p t ih =>
    obtain ⟨k, m⟩ := p
    have hmono : ∀ n, isDefined n t = true → isDefined n ((k, m) :: t) = true := by
      intro n hn
      unfold isDefined at hn ⊢
      by_cases hk : k = n <;> simp [lookup, hk, hn]
    rw [guardedDefines]
    unfold guardedDefine ifndef
    by_cases hd : isDefined k s.env = true
    · simp only [hd, if_true]
      obtain ⟨ds, hds, hall⟩ := ih s
      refine ⟨ds, hds, ?_⟩
      intro e he
      obtain ⟨n, hn, h1, h2⟩ := hall e he
      exact ⟨n, hn, h1, hmono n h2⟩
    · simp only [hd]
      simp only [Bool.not_eq_true] at hd
      obtain ⟨ds, hds, hall⟩ := ih (define k m s)
      refine ⟨Event.defined k :: ds, ?_, ?_⟩
      · simp only [Bool.false_eq_true, if_false]
        rw [hds]; simp [define]
      · intro e he
        rcases List.mem_cons.mp he with rfl | he
        · exact ⟨k, rfl, hd, by simp [isDefined, lookup]⟩
        · obtain ⟨n, hn, hnd, hnt⟩ := hall e he
          refine ⟨n, hn, ?_, hmono n hnt⟩
          simp only [define, isDefined_define, Bool.or_eq_false_iff] at hnd
          exact hnd.2

/-! ## The blocks of the header -/

@[simp] theorem define_env (n : String) (m : MacroDef) (s : State) :
    (define n m s).env = s.env.define n m := rfl

@[simp] theorem define_trace (n : String) (m : MacroDef) (s : State) :
    (define n m s).trace = s.trace ++ [Event.defined n] := rfl

@[simp] theorem includeSys_env (h : String) (s : State) : (includeSys h s).env = s.env := rfl

@[simp] theorem includeSys_trace (h : String) (s : State) :
    (includeSys h s).trace = s.trace ++ [Event.included h] := rfl

theorem declsBlock_eq (s : State) :
    declsBlock s =
      if isDefined "__BEGIN_DECLS" s.env then s
      else if isDefined "__cplusplus" s.env then
        define "__END_DECLS" ⟨none, ["\x7d"]⟩
          (define "__BEGIN_DECLS" ⟨none, ["extern", "\"C\"", "\x7b"]⟩ s)
      else define "__END_DECLS" emptyDef (define "__BEGIN_DECLS" emptyDef s) := rfl

theorem cdefsBlock_eq (s : State) :
    cdefsBlock s =
      if isDefined "_SYS_CDEFS_H_" s.env then s
      else guardedDefines cdefsTable (define "_SYS_CDEFS_H_" emptyDef s) := rfl

theorem declsBlock_trace (s : State) :
    ∃ ds, (declsBlock s).trace = s.trace ++ ds ∧
      ∀ e ∈ ds, ∃ n, e = Event.defined n ∧ isDefined "__BEGIN_DECLS" s.env = false ∧
        (n = "__BEGIN_DECLS" ∨ n = "__END_DECLS") := by
  rw [declsBlock_eq]
  by_cases hb : isDefined "__BEGIN_DECLS" s.env = true
  · exact ⟨[], by simp [hb], by simp⟩
  · simp only [Bool.not_eq_true] at hb
    refine ⟨[Event.defined "__BEGIN_DECLS", Event.defined "__END_DECLS"], ?_, ?_⟩
    · by_cases hc : isDefined "__cplusplus" s.env = true <;> simp [hb, hc]
    · intro e he
      simp only [List.mem_cons, List.mem_singleton, List.not_mem_nil, or_false] at he
      rcases he with rfl | rfl
      · exact ⟨_, rfl, hb, Or.inl rfl⟩
      · exact ⟨_, rfl, hb, Or.inr rfl⟩

theorem declsBlock_isDefined_false (n : String) (s : State)
    (h : isDefined n (declsBlock s).env = false) : isDefined n s.env = false := by
  rw [declsBlock_eq] at h
  by_cases hb : isDefined "__BEGIN_DECLS" s.env = true
  · simpa [hb] using h
  · by_cases hc : isDefined "__cplusplus" s.env = true <;>
      simp [hb, hc, isDefined_define] at h <;> exact h.2.2

theorem declsBlock_lookup_other (x : String) (s : State)
    (h1 : x ≠ "__BEGIN_DECLS") (h2 : x ≠ "__END_DECLS") :
    lookup x (declsBlock s).env = lookup x s.env := by
  have h1b : ¬ "__BEGIN_DECLS" = x := fun e => h1 e.symm
  have h2b : ¬ "__END_DECLS" = x := fun e => h2 e.symm
  rw [declsBlock_eq]
  by_cases hb : isDefined "__BEGIN_DECLS" s.env = true
  · simp [hb]
  · by_cases hc : isDefined "__cplusplus" s.env = true <;>
      simp [hb, hc, lookup_define, h1b, h2b]

theorem cdefsBlock_trace (s : State) :
    ∃ ds, (cdefsBlock s).trace = s.trace ++ ds ∧
      ∀ e ∈ ds, ∃ n, e = Event.defined n ∧ isDefined "_SYS_CDEFS_H_" s.env = false ∧
        isDefined n s.env = false ∧ (n = "_SYS_CDEFS_H_" ∨ isDefined n cdefsTable = true) := by
  rw [cdefsBlock_eq]
  by_cases hb : isDefined "_SYS_CDEFS_H_" s.env = true
  · exact ⟨[], by simp [hb], by simp⟩
  · simp only [Bool.not_eq_true] at hb
    obtain ⟨ds, hds, hall⟩ := guardedDefines_trace cdefsTable (define "_SYS_CDEFS_H_" emptyDef s)
    refine ⟨Event.defined "_SYS_CDEFS_H_" :: ds, ?_, ?_⟩
    · simp [hb, hds]
    · intro e he
      rcases List.mem_cons.mp he with rfl | he
      · exact ⟨_, rfl, hb, hb, Or.inl rfl⟩
      · obtain ⟨n, hn, hnd, hnt⟩ := hall e he
        simp only [define_env, isDefined_define, Bool.or_eq_false_iff] at hnd
        exact ⟨n, hn, hb, hnd.2, Or.inr hnt⟩

theorem muslBlock_trace (s : State) :
    ∃ ds, (muslBlock s).trace = s.trace ++ ds ∧
      ∀ e ∈ ds, ∃ n, e = Event.defined n ∧ NewDef s.env n := by
  unfold muslBlock ifdef
  by_cases hm : isDefined "__MUSL__" s.env = true
  · simp only [hm, if_true]
    obtain ⟨d1, h1, a1⟩ := declsBlock_trace s
    obtain ⟨d2, h2, a2⟩ := cdefsBlock_trace (declsBlock s)
    refine ⟨d1 ++ d2, by rw [h2, h1, List.append_assoc], ?_⟩
    intro e he
    rcases List.mem_append.mp he with he | he
    · obtain ⟨n, hn, hb, hcase⟩ := a1 e he
      rcases hcase with rfl | rfl
      · exact ⟨_, hn, hm, Or.inl ⟨rfl, hb⟩⟩
      · exact ⟨_, hn, hm, Or.inr (Or.inl ⟨rfl, hb⟩)⟩
    · obtain ⟨n, hn, hc, hnd, hcase⟩ := a2 e he
      exact ⟨n, hn, hm, Or.inr (Or.inr ⟨declsBlock_isDefined_false _ s hc,
        declsBlock_isDefined_false n s hnd, hcase⟩)⟩
  · exact ⟨[], by simp [hm], by simp⟩

/-- A later inclusion: with the include guard defined the header does nothing. -/
theorem includeHeader_guarded (env : Env) (h : isDefined "MUSL_COMPATIBILITY_H" env = true) :
    includeHeader env = ⟨env, []⟩ := by
  simp [includeHeader, musl_compatibility_h, ifndef, h]

/-- A first inclusion: the state it produces. -/
theorem includeHeader_first (env : Env) (h : isDefined "MUSL_COMPATIBILITY_H" env = false) :
    includeHeader env =
      includeSys "sys/types.h" (includeSys "stdint.h"
        (muslBlock (define "MUSL_COMPATIBILITY_H" emptyDef ⟨env, []⟩))) := by
  simp [includeHeader, musl_compatibility_h, ifndef, h]

/-- A first inclusion: the trace is the include guard's `#define`, then the
`#define`s of the activation block, then the two `#include`s. -/
theorem includeHeader_first_trace (env : Env)
    (h : isDefined "MUSL_COMPATIBILITY_H" env = false) :
    ∃ ds, (includeHeader env).trace =
        Event.defined "MUSL_COMPATIBILITY_H" :: ds
          ++ [Event.included "stdint.h", Event.included "sys/types.h"]
      ∧ ∀ e ∈ ds, ∃ n, e = Event.defined n ∧ NewDef env n := by
  rw [includeHeader_first env h]
  obtain ⟨ds, hds, hall⟩ := muslBlock_trace (define "MUSL_COMPATIBILITY_H" emptyDef ⟨env, []⟩)
  refine ⟨ds, by simp [hds], ?_⟩
  intro e he
  obtain ⟨n, hn, hnd⟩ := hall e he
  refine ⟨n, hn, ?_⟩
  simp only [NewDef, define_env, isDefined_define, Bool.or_eq_true, Bool.or_eq_false_iff,
    decide_eq_true_eq, decide_eq_false_iff_not] at hnd
  obtain ⟨hm, hcase⟩ := hnd
  refine ⟨hm.resolve_left (by decide), ?_⟩
  rcases hcase with ⟨h1, h2⟩ | ⟨h1, h2⟩ | ⟨h1, h2, h3⟩
  · exact Or.inl ⟨h1, h2.2⟩
  · exact Or.inr (Or.inl ⟨h1, h2.2⟩)
  · exact Or.inr (Or.inr ⟨h1.2, h2.2, h3⟩)

/-- The binding of any name after a first inclusion, in terms of the table
before it. -/
theorem lookup_includeHeader_first (env : Env) (x : String)
    (h : isDefined "MUSL_COMPATIBILITY_H" env = false) :
    lookup x (includeHeader env).env =
      lookup x (muslBlock (define "MUSL_COMPATIBILITY_H" emptyDef ⟨env, []⟩)).env := by
  rw [includeHeader_first env h]; rfl

theorem declsBlock_lookup (x : String) (v : MacroDef) (s : State)
    (h : lookup x s.env = some v)
    (hp : x = "__END_DECLS" → isDefined "__BEGIN_DECLS" s.env = true) :
    lookup x (declsBlock s).env = some v := by
  rw [declsBlock_eq]
  by_cases hb : isDefined "__BEGIN_DECLS" s.env = true
  · simpa [hb] using h
  · have he : ¬ "__END_DECLS" = x := fun e => hb (hp e.symm)
    have hbx : ¬ "__BEGIN_DECLS" = x := by
      intro e; subst e
      exact hb (isDefined_of_lookup h)
    by_cases hc : isDefined "__cplusplus" s.env = true <;>
      simp [hb, hc, lookup_define, he, hbx, h]

theorem cdefsBlock_lookup (x : String) (v : MacroDef) (s : State)
    (h : lookup x s.env = some v) :
    lookup x (cdefsBlock s).env = some v := by
  rw [cdefsBlock_eq]
  by_cases hb : isDefined "_SYS_CDEFS_H_" s.env = true
  · simpa [hb] using h
  · have hx : ¬ "_SYS_CDEFS_H_" = x := by
      intro e; subst e
      exact hb (isDefined_of_lookup h)
    simp [hb, guardedDefines_lookup, lookup_define, hx, h]

theorem muslBlock_lookup (x : String) (v : MacroDef) (s : State)
    (h : lookup x s.env = some v)
    (hp : x = "__END_DECLS" → isDefined "__BEGIN_DECLS" s.env = true) :
    lookup x (muslBlock s).env = some v := by
  unfold muslBlock ifdef
  by_cases hm : isDefined "__MUSL__" s.env = true
  · simp only [hm, if_true]
    exact cdefsBlock_lookup x v _ (declsBlock_lookup x v s h hp)
  · simpa [hm] using h

/-- A name that is defined keeps its definition through an inclusion, with one
exception: `__END_DECLS` is only kept if `__BEGIN_DECLS` is defined too. -/
theorem includeHeader_lookup (x : String) (v : MacroDef) (env : Env)
    (h : lookup x env = some v)
    (hp : x = "__END_DECLS" → isDefined "__BEGIN_DECLS" env = true) :
    lookup x (includeHeader env).env = some v := by
  by_cases hg : isDefined "MUSL_COMPATIBILITY_H" env = true
  · rw [includeHeader_guarded env hg]; exact h
  · simp only [Bool.not_eq_true] at hg
    rw [lookup_includeHeader_first env x hg]
    have hx : ¬ "MUSL_COMPATIBILITY_H" = x := by
      intro e; subst e
      rw [isDefined_of_lookup h] at hg
      exact Bool.noConfusion hg
    apply muslBlock_lookup
    · simp [lookup_define, hx, h]
    · intro e
      simp [isDefined_define, hp e]

/-- After any inclusion the include guard is defined. -/
theorem includeHeader_guard_defined (env : Env) :
    isDefined "MUSL_COMPATIBILITY_H" (includeHeader env).env = true := by
  by_cases hg : isDefined "MUSL_COMPATIBILITY_H" env = true
  · rw [includeHeader_guarded env hg]; exact hg
  · simp only [Bool.not_eq_true] at hg
    unfold isDefined
    rw [lookup_includeHeader_first env _ hg,
      muslBlock_lookup "MUSL_COMPATIBILITY_H" emptyDef _ (by simp [lookup_define])
        (fun e => absurd e (by decide))]
    rfl

/-- The table block when its guard `_SYS_CDEFS_H_` is undefined: a name that is
undefined before gets the table's definition. -/
theorem cdefsBlock_fill (x : String) (s : State)
    (hc : isDefined "_SYS_CDEFS_H_" s.env = false) (hx : lookup x s.env = none)
    (hne : x ≠ "_SYS_CDEFS_H_") :
    lookup x (cdefsBlock s).env = lookup x cdefsTable := by
  have hne2 : ¬ "_SYS_CDEFS_H_" = x := fun e => hne e.symm
  rw [cdefsBlock_eq]
  simp [hc, guardedDefines_lookup, lookup_define, hne2, hx]


/-- The names of the table are none of the guards, the flag or the brackets. -/
theorem table_name_ne (x : String) (ht : isDefined x cdefsTable = true) :
    x ≠ "MUSL_COMPATIBILITY_H" ∧ x ≠ "__MUSL__" ∧ x ≠ "__BEGIN_DECLS" ∧
      x ≠ "__END_DECLS" ∧ x ≠ "_SYS_CDEFS_H_" := by
  refine ⟨?_, ?_, ?_, ?_, ?_⟩ <;>
  · rintro rfl
    revert ht
    decide

/-- A first inclusion with the layer active and the table guard undefined: a
table name that is undefined before gets the table's definition. -/
theorem includeHeader_fill (env : Env) (x : String)
    (hg : isDefined "MUSL_COMPATIBILITY_H" env = false)
    (hm : isDefined "__MUSL__" env = true)
    (hc : isDefined "_SYS_CDEFS_H_" env = false)
    (hx : isDefined x env = false)
    (ht : isDefined x cdefsTable = true) :
    lookup x (includeHeader env).env = lookup x cdefsTable := by
  obtain ⟨n1, _, n3, n4, n5⟩ := table_name_ne x ht
  have n1b : ¬ "MUSL_COMPATIBILITY_H" = x := fun e => n1 e.symm
  rw [lookup_includeHeader_first env x hg]
  unfold muslBlock ifdef
  have hm2 : isDefined "__MUSL__"
      (define "MUSL_COMPATIBILITY_H" emptyDef ⟨env, []⟩).env = true := by
    simp [isDefined_define, hm]
  simp only [hm2, if_true]
  apply cdefsBlock_fill
  · unfold isDefined
    rw [declsBlock_lookup_other _ _ (by decide) (by decide)]
    simpa [isDefined, lookup_define] using hc
  · rw [declsBlock_lookup_other _ _ n3 n4]
    rw [isDefined_false_iff] at hx
    simp [lookup_define, n1b, hx]
  · exact n5

/-- Whenever an inclusion executes the `#define` of a table name, the
definition in force afterwards is the table's. -/
theorem includeHeader_installs (env : Env) (x : String)
    (ht : isDefined x cdefsTable = true)
    (hev : Event.defined x ∈ (includeHeader env).trace) :
    lookup x (includeHeader env).env = lookup x cdefsTable := by
  obtain ⟨n1, _, n3, n4, n5⟩ := table_name_ne x ht
  by_cases hg : isDefined "MUSL_COMPATIBILITY_H" env = true
  · rw [includeHeader_guarded env hg] at hev
    simp at hev
  · simp only [Bool.not_eq_true] at hg
    obtain ⟨ds, hds, hall⟩ := includeHeader_first_trace env hg
    rw [hds] at hev
    simp only [List.cons_append, List.mem_cons, List.mem_append, Event.defined.injEq,
      List.mem_singleton, List.not_mem_nil, or_false, reduceCtorEq] at hev
    rcases hev with h | h
    · exact absurd h n1
    · obtain ⟨n, hn, hm, hcase⟩ := hall _ h
      cases hn
      rcases hcase with ⟨h1, _⟩ | ⟨h1, _⟩ | ⟨hc, hx, _⟩
      · exact absurd h1 n3
      · exact absurd h1 n4
      · exact includeHeader_fill env x hg hm hc hx ht

/-- With the layer active, `__BEGIN_DECLS` is defined after the activation block. -/
theorem muslBlock_begin_defined (s : State) (hm : isDefined "__MUSL__" s.env = true) :
    isDefined "__BEGIN_DECLS" (muslBlock s).env = true := by
  unfold muslBlock ifdef
  simp only [hm, if_true]
  have h : ∃ v, lookup "__BEGIN_DECLS" (declsBlock s).env = some v := by
    rw [declsBlock_eq]
    by_cases hb : isDefined "__BEGIN_DECLS" s.env = true
    · simp only [hb, if_true]
      exact Option.isSome_iff_exists.mp hb
    · by_cases hc : isDefined "__cplusplus" s.env = true <;>
        simp [hb, hc, lookup_define]
  obtain ⟨v, hv⟩ := h
  exact isDefined_of_lookup (cdefsBlock_lookup _ v _ hv)

/-- The bindings of the brackets after the activation block, when the layer is
active and `__BEGIN_DECLS` was undefined. -/
theorem muslBlock_brackets (s : State) (hm : isDefined "__MUSL__" s.env = true)
    (hb : isDefined "__BEGIN_DECLS" s.env = false) :
    (isDefined "__cplusplus" s.env = true →
      lookup "__BEGIN_DECLS" (muslBlock s).env = some ⟨none, ["extern", "\"C\"", "\x7b"]⟩ ∧
      lookup "__END_DECLS" (muslBlock s).env = some ⟨none, ["\x7d"]⟩) ∧
    (isDefined "__cplusplus" s.env = false →
      lookup "__BEGIN_DECLS" (muslBlock s).env = some emptyDef ∧
      lookup "__END_DECLS" (muslBlock s).env = some emptyDef) := by
  unfold muslBlock ifdef
  simp only [hm, if_true]
  constructor
  · intro hc
    constructor <;>
    · apply cdefsBlock_lookup
      rw [declsBlock_eq]
      simp [hb, hc, lookup_define]
  · intro hc
    constructor <;>
    · apply cdefsBlock_lookup
      rw [declsBlock_eq]
      simp [hb, hc, lookup_define]


/-! ## The claims -/

/-- C1, as stated, fails for `__END_DECLS`: in a translation unit that defines
`__MUSL__` and pre-defines `__END_DECLS` to a sentinel (and not
`__BEGIN_DECLS`), the header executes `#define __END_DECLS` and the sentinel is
no longer in force afterwards. -/
theorem nonoverride_fails_for_END_DECLS :
    "__END_DECLS" ∈ exportedNames ∧
    isDefined "__MUSL__" endDeclsOnly = true ∧
    lookup "__END_DECLS" endDeclsOnly = some sentinel ∧
    lookup "__END_DECLS" (includeHeader endDeclsOnly).env = some emptyDef ∧
    lookup "__END_DECLS" (includeHeader endDeclsOnly).env ≠ some sentinel ∧
    Event.defined "__END_DECLS" ∈ (includeHeader endDeclsOnly).trace := by
  decide

/-- C1, amended: for every name `S` of the exported vocabulary and every macro
table in which `__MUSL__` is defined and `S` is defined to a sentinel `v`,
provided that, when `S` is `__END_DECLS`, `__BEGIN_DECLS` is defined as well:
after the inclusion `S` is still bound to `v`, and the header executed no
`#define S`. -/
theorem nonoverride (env : Env) (S : String) (v : MacroDef)
    (_hS : S ∈ exportedNames)
    (_hM : isDefined "__MUSL__" env = true)
    (hv : lookup S env = some v)
    (hpair : S = "__END_DECLS" → isDefined "__BEGIN_DECLS" env = true) :
    lookup S (includeHeader env).env = some v ∧
    Event.defined S ∉ (includeHeader env).trace := by
  refine ⟨includeHeader_lookup S v env hv hpair, ?_⟩
  have hd : isDefined S env = true := isDefined_of_lookup hv
  intro hev
  by_cases hg : isDefined "MUSL_COMPATIBILITY_H" env = true
  · rw [includeHeader_guarded env hg] at hev
    simp at hev
  · simp only [Bool.not_eq_true] at hg
    obtain ⟨ds, hds, hall⟩ := includeHeader_first_trace env hg
    rw [hds] at hev
    simp only [List.cons_append, List.mem_cons, List.mem_append, Event.defined.injEq,
      List.mem_singleton, List.not_mem_nil, or_false, reduceCtorEq] at hev
    rcases hev with h | h
    · subst h
      rw [hd] at hg
      exact Bool.noConfusion hg
    · obtain ⟨n, hn, _, hcase⟩ := hall _ h
      cases hn
      rcases hcase with ⟨h1, h2⟩ | ⟨h1, h2⟩ | ⟨_, hx, _⟩
      · subst h1
        rw [hd] at h2
        exact Bool.noConfusion h2
      · rw [hpair h1] at h2
        exact Bool.noConfusion h2
      · rw [hd] at hx
        exact Bool.noConfusion hx

/-- C1, amended, at a concrete input: `__unused` pre-defined to the sentinel. -/
theorem nonoverride_witness :
    lookup "__unused" unusedPredefined = some sentinel ∧
    lookup "__unused" (includeHeader unusedPredefined).env = some sentinel ∧
    Event.defined "__unused" ∉ (includeHeader unusedPredefined).trace :=
  ⟨by decide,
   nonoverride unusedPredefined "__unused" sentinel (by decide) (by decide) (by decide)
     (fun e => absurd e (by decide))⟩

/-- C2, as stated, fails: with no macro defined at all (so `__MUSL__` is not
defined), the macro table after the inclusion is not the table before it; it
holds the include guard `MUSL_COMPATIBILITY_H`. -/
theorem inactive_not_strict_noop :
    isDefined "__MUSL__" [] = false ∧
    (includeHeader []).env ≠ [] ∧
    (includeHeader []).env = [("MUSL_COMPATIBILITY_H", emptyDef)] := by
  decide

/-- C2, amended: when `__MUSL__` is not defined, a first inclusion defines the
include guard `MUSL_COMPATIBILITY_H`, includes the two C library headers and
does nothing else, and a later inclusion does nothing; so every macro other
than the include guard is bound after the inclusion exactly as before it. -/
theorem inactive_only_guard (env : Env) (hM : isDefined "__MUSL__" env = false) :
    includeHeader env =
      (if isDefined "MUSL_COMPATIBILITY_H" env then ⟨env, []⟩
       else ⟨env.define "MUSL_COMPATIBILITY_H" emptyDef,
             [Event.defined "MUSL_COMPATIBILITY_H", Event.included "stdint.h",
              Event.included "sys/types.h"]⟩) ∧
    ∀ x, x ≠ "MUSL_COMPATIBILITY_H" → lookup x (includeHeader env).env = lookup x env := by
  by_cases hg : isDefined "MUSL_COMPATIBILITY_H" env = true
  · rw [includeHeader_guarded env hg]
    simp [hg]
  · simp only [Bool.not_eq_true] at hg
    have hm2 : isDefined "__MUSL__" (env.define "MUSL_COMPATIBILITY_H" emptyDef) = false := by
      simp [isDefined_define, hM]
    have key : includeHeader env =
        ⟨env.define "MUSL_COMPATIBILITY_H" emptyDef,
         [Event.defined "MUSL_COMPATIBILITY_H", Event.included "stdint.h",
          Event.included "sys/types.h"]⟩ := by
      rw [includeHeader_first env hg]
      simp [muslBlock, ifdef, hm2, includeSys, define]
    rw [key]
    refine ⟨by simp [hg], ?_⟩
    intro x hx
    have hx2 : ¬ "MUSL_COMPATIBILITY_H" = x := fun e => hx e.symm
    simp [lookup_define, hx2]

/-- C2, amended, at a concrete input: the empty macro table. -/
theorem inactive_only_guard_witness :
    isDefined "__MUSL__" [] = false ∧
    (includeHeader [] =
      (if isDefined "MUSL_COMPATIBILITY_H" [] then ⟨[], []⟩
       else ⟨Env.define "MUSL_COMPATIBILITY_H" emptyDef [],
             [Event.defined "MUSL_COMPATIBILITY_H", Event.included "stdint.h",
              Event.included "sys/types.h"]⟩) ∧
     ∀ x, x ≠ "MUSL_COMPATIBILITY_H" → lookup x (includeHeader []).env = lookup x []) :=
  ⟨by decide, inactive_only_guard [] (by decide)⟩

/-- C3: for every macro table, a second inclusion right after a first one
leaves the macro table as the first inclusion left it and executes no
directive at all (its trace is empty: no `#define`, no `#include`). -/
theorem second_inclusion_noop (env : Env) :
    (includeHeader (includeHeader env).env).env = (includeHeader env).env ∧
    (includeHeader (includeHeader env).env).trace = [] := by
  rw [includeHeader_guarded _ (includeHeader_guard_defined env)]
  exact ⟨rfl, rfl⟩

/-- C4, as stated, fails: with `__MUSL__` defined, the include guard undefined
and the table guard `_SYS_CDEFS_H_` already defined, the table is skipped and
`__unused` is not defined after the inclusion. -/
theorem vocabulary_not_guaranteed :
    isDefined "__MUSL__" cdefsSeen = true ∧
    isDefined "MUSL_COMPATIBILITY_H" cdefsSeen = false ∧
    "__unused" ∈ exportedNames ∧
    isDefined "__unused" (includeHeader cdefsSeen).env = false := by
  decide

/-- C4, amended: for every macro table in which `__MUSL__` is defined, the
include guard `MUSL_COMPATIBILITY_H` and the table guard `_SYS_CDEFS_H_` are
undefined, and `__END_DECLS` is defined if `__BEGIN_DECLS` is, every exported
name is defined after the inclusion. -/
theorem vocabulary_defined (env : Env)
    (hM : isDefined "__MUSL__" env = true)
    (hG : isDefined "MUSL_COMPATIBILITY_H" env = false)
    (hC : isDefined "_SYS_CDEFS_H_" env = false)
    (hpair : isDefined "__BEGIN_DECLS" env = true → isDefined "__END_DECLS" env = true) :
    ∀ n ∈ exportedNames, isDefined n (includeHeader env).env = true := by
  have hm2 : isDefined "__MUSL__"
      (define "MUSL_COMPATIBILITY_H" emptyDef ⟨env, []⟩).env = true := by
    simp [isDefined_define, hM]
  have hBegin : isDefined "__BEGIN_DECLS" (includeHeader env).env = true := by
    unfold isDefined
    rw [lookup_includeHeader_first env _ hG]
    exact muslBlock_begin_defined _ hm2
  have hEnd : isDefined "__END_DECLS" (includeHeader env).env = true := by
    by_cases hb : isDefined "__BEGIN_DECLS" env = true
    · obtain ⟨v, hv⟩ := Option.isSome_iff_exists.mp (hpair hb)
      exact isDefined_of_lookup (includeHeader_lookup _ v env hv (fun _ => hb))
    · simp only [Bool.not_eq_true] at hb
      have hb2 : isDefined "__BEGIN_DECLS"
          (define "MUSL_COMPATIBILITY_H" emptyDef ⟨env, []⟩).env = false := by
        simp [isDefined_define, hb]
      unfold isDefined
      rw [lookup_includeHeader_first env _ hG]
      by_cases hc : isDefined "__cplusplus"
          (define "MUSL_COMPATIBILITY_H" emptyDef ⟨env, []⟩).env = true
      · rw [((muslBlock_brackets _ hm2 hb2).1 hc).2]; rfl
      · simp only [Bool.not_eq_true] at hc
        rw [((muslBlock_brackets _ hm2 hb2).2 hc).2]; rfl
  have hTable : ∀ n, isDefined n cdefsTable = true →
      isDefined n (includeHeader env).env = true := by
    intro n ht
    by_cases hx : isDefined n env = true
    · obtain ⟨v, hv⟩ := Option.isSome_iff_exists.mp hx
      exact isDefined_of_lookup
        (includeHeader_lookup n v env hv (fun e => absurd e (table_name_ne n ht).2.2.2.1))
    · simp only [Bool.not_eq_true] at hx
      unfold isDefined
      rw [includeHeader_fill env n hG hM hC hx ht]
      exact ht
  have hNames : ∀ n ∈ exportedNames,
      n = "__BEGIN_DECLS" ∨ n = "__END_DECLS" ∨ isDefined n cdefsTable = true := by
    decide
  intro n hn
  rcases hNames n hn with rfl | rfl | ht
  · exact hBegin
  · exact hEnd
  · exact hTable n ht

/-- C4, amended, at a concrete input: only the activation flag defined. -/
theorem vocabulary_defined_witness :
    isDefined "__MUSL__" freshMusl = true ∧
    isDefined "MUSL_COMPATIBILITY_H" freshMusl = false ∧
    isDefined "_SYS_CDEFS_H_" freshMusl = false ∧
    ∀ n ∈ exportedNames, isDefined n (includeHeader freshMusl).env = true :=
  ⟨by decide, by decide, by decide,
   vocabulary_defined freshMusl (by decide) (by decide) (by decide)
     (fun h => absurd h (by decide))⟩


/-- C5, as stated, fails: when the header was first included before `__MUSL__`
was defined, the include guard is defined; with `__MUSL__` defined later and
neither bracket defined, a further inclusion does nothing and `__BEGIN_DECLS`
stays undefined instead of expanding to nothing. -/
theorem brackets_missing_on_later_inclusion :
    isDefined "__MUSL__" includedBeforeFlag = true ∧
    isDefined "__BEGIN_DECLS" includedBeforeFlag = false ∧
    isDefined "__END_DECLS" includedBeforeFlag = false ∧
    isDefined "__cplusplus" includedBeforeFlag = false ∧
    lookup "__BEGIN_DECLS" (includeHeader includedBeforeFlag).env = none ∧
    lookup "__BEGIN_DECLS" (includeHeader includedBeforeFlag).env ≠ some emptyDef := by
  decide

/-- C5, amended: on a first inclusion (`MUSL_COMPATIBILITY_H` undefined) with
`__MUSL__` defined and neither `__BEGIN_DECLS` nor `__END_DECLS` predefined,
after the inclusion `__BEGIN_DECLS` expands to the three tokens that open a
C linkage block and `__END_DECLS` to the closing brace if `__cplusplus` is
defined, and both expand to the empty token sequence
if `__cplusplus` is not defined. -/
theorem linkage_brackets (env : Env)
    (hG : isDefined "MUSL_COMPATIBILITY_H" env = false)
    (hM : isDefined "__MUSL__" env = true)
    (hB : isDefined "__BEGIN_DECLS" env = false)
    (_hE : isDefined "__END_DECLS" env = false) :
    (isDefined "__cplusplus" env = true →
      lookup "__BEGIN_DECLS" (includeHeader env).env = some ⟨none, ["extern", "\"C\"", "\x7b"]⟩ ∧
      lookup "__END_DECLS" (includeHeader env).env = some ⟨none, ["\x7d"]⟩) ∧
    (isDefined "__cplusplus" env = false →
      lookup "__BEGIN_DECLS" (includeHeader env).env = some ⟨none, []⟩ ∧
      lookup "__END_DECLS" (includeHeader env).env = some ⟨none, []⟩) := by
  have hm2 : isDefined "__MUSL__"
      (define "MUSL_COMPATIBILITY_H" emptyDef ⟨env, []⟩).env = true := by
    simp [isDefined_define, hM]
  have hb2 : isDefined "__BEGIN_DECLS"
      (define "MUSL_COMPATIBILITY_H" emptyDef ⟨env, []⟩).env = false := by
    simp [isDefined_define, hB]
  have hcpp : isDefined "__cplusplus" (define "MUSL_COMPATIBILITY_H" emptyDef ⟨env, []⟩).env
      = isDefined "__cplusplus" env := by
    simp [isDefined_define]
  rw [lookup_includeHeader_first env _ hG, lookup_includeHeader_first env _ hG]
  have h := muslBlock_brackets _ hm2 hb2
  rw [hcpp] at h
  exact h

/-- C5, amended, at a concrete input: a fresh C++ translation unit. -/
theorem linkage_brackets_witness :
    isDefined "__cplusplus" freshMuslCxx = true ∧
    lookup "__BEGIN_DECLS" (includeHeader freshMuslCxx).env
      = some ⟨none, ["extern", "\"C\"", "\x7b"]⟩ ∧
    lookup "__END_DECLS" (includeHeader freshMuslCxx).env = some ⟨none, ["\x7d"]⟩ :=
  ⟨by decide,
   (linkage_brackets freshMuslCxx (by decide) (by decide) (by decide) (by decide)).1
     (by decide)⟩

/-- C9: on a first inclusion (`MUSL_COMPATIBILITY_H` undefined), whatever else
the macro table holds, the trace of the inclusion is a run of `#define`s
followed by `#include <stdint.h>` and then `#include <sys/types.h>`, so both
headers are included, in that order, after every macro definition; on a later
inclusion (`MUSL_COMPATIBILITY_H` defined) the trace is empty, so neither is
included. -/
theorem type_headers_after_table (env : Env) :
    (isDefined "MUSL_COMPATIBILITY_H" env = false →
      ∃ ds, (includeHeader env).trace
          = ds ++ [Event.included "stdint.h", Event.included "sys/types.h"] ∧
        ∀ e ∈ ds, ∃ n, e = Event.defined n) ∧
    (isDefined "MUSL_COMPATIBILITY_H" env = true → (includeHeader env).trace = []) := by
  constructor
  · intro hG
    obtain ⟨ds, hds, hall⟩ := includeHeader_first_trace env hG
    refine ⟨Event.defined "MUSL_COMPATIBILITY_H" :: ds, hds, ?_⟩
    intro e he
    rcases List.mem_cons.mp he with rfl | he
    · exact ⟨_, rfl⟩
    · obtain ⟨n, hn, _⟩ := hall e he
      exact ⟨n, hn⟩
  · intro hG
    rw [includeHeader_guarded env hG]

/-- C9 at concrete inputs: a first inclusion into a fresh musl translation
unit, and a later inclusion. -/
theorem type_headers_after_table_witness :
    (∃ ds, (includeHeader freshMusl).trace
        = ds ++ [Event.included "stdint.h", Event.included "sys/types.h"] ∧
      ∀ e ∈ ds, ∃ n, e = Event.defined n) ∧
    (includeHeader includedBeforeFlag).trace = [] :=
  ⟨(type_headers_after_table freshMusl).1 (by decide),
   (type_headers_after_table includedBeforeFlag).2 (by decide)⟩

/-- C10: with `g < 65536` and `min < 65536`, `__GNUC_PREREQ(maj, min)` for the
compiler version `(G, g)` is true exactly when `(G, g)` is lexicographically at
least `(maj, min)`; it is true for `(maj, min) = (G, g)`, and it is monotone in
the compiler version. -/
theorem gnuc_prereq_lexicographic (G g maj min : Nat) (hg : g < 65536) (hmin : min < 65536) :
    (__GNUC_PREREQ G g maj min = true ↔ (G > maj ∨ (G = maj ∧ g ≥ min))) ∧
    __GNUC_PREREQ G g G g = true ∧
    (∀ G2 g2 : Nat, g2 < 65536 → (G < G2 ∨ (G = G2 ∧ g ≤ g2)) →
      __GNUC_PREREQ G g maj min = true → __GNUC_PREREQ G2 g2 maj min = true) := by
  simp only [__GNUC_PREREQ, Nat.shiftLeft_eq, decide_eq_true_eq]
  refine ⟨?_, ?_, ?_⟩
  · constructor
    · intro h; omega
    · intro h; omega
  · omega
  · intro G2 g2 hg2 hlex h
    omega

/-- C10 at a concrete input: GCC 4.8 satisfies `__GNUC_PREREQ(4, 7)`. -/
theorem gnuc_prereq_lexicographic_witness :
    (__GNUC_PREREQ 4 8 4 7 = true ↔ (4 > 4 ∨ (4 = 4 ∧ 8 ≥ 7))) ∧
    __GNUC_PREREQ 4 8 4 8 = true ∧
    (∀ G2 g2 : Nat, g2 < 65536 → (4 < G2 ∨ (4 = G2 ∧ 8 ≤ g2)) →
      __GNUC_PREREQ 4 8 4 7 = true → __GNUC_PREREQ G2 g2 4 7 = true) :=
  gnuc_prereq_lexicographic 4 8 4 7 (by decide) (by decide)


/-- C6: whenever an inclusion executes the `#define` of a branch hint, the hint
has the one parameter `exp`, which occurs exactly once in its replacement list;
`__predict_true(e)` expands to `__builtin_expect((e), 1)` and
`__predict_false(e)` to `__builtin_expect((e), 0)` for every argument `e`; and
for an expression `e` the expansion is the expression
`__builtin_expect((e), c)`, whose evaluation yields the value of `e` and the
store that one evaluation of `e` leaves. -/
theorem branch_hints (env : Env) :
    (Event.defined "__predict_true" ∈ (includeHeader env).trace →
      ∃ m, lookup "__predict_true" (includeHeader env).env = some m ∧
        m.params = some ["exp"] ∧ m.body.count "exp" = 1 ∧
        (∀ e : List String, invoke (includeHeader env).env "__predict_true" [e]
          = some (["__builtin_expect", "(", "("] ++ e ++ [")", ",", "1", ")"])) ∧
        (∀ e : CExpr, invoke (includeHeader env).env "__predict_true" [e.render]
          = some (CExpr.expect (.paren e) (.lit 1)).render)) ∧
    (Event.defined "__predict_false" ∈ (includeHeader env).trace →
      ∃ m, lookup "__predict_false" (includeHeader env).env = some m ∧
        m.params = some ["exp"] ∧ m.body.count "exp" = 1 ∧
        (∀ e : List String, invoke (includeHeader env).env "__predict_false" [e]
          = some (["__builtin_expect", "(", "("] ++ e ++ [")", ",", "0", ")"])) ∧
        (∀ e : CExpr, invoke (includeHeader env).env "__predict_false" [e.render]
          = some (CExpr.expect (.paren e) (.lit 0)).render)) ∧
    (∀ (e : CExpr) (c : Int) (σ : Store),
      (CExpr.expect (.paren e) (.lit c)).eval σ = e.eval σ) := by
  refine ⟨?_, ?_, ?_⟩
  · intro hev
    have hl := includeHeader_installs env "__predict_true" (by decide) hev
    refine ⟨⟨some ["exp"], ["__builtin_expect", "(", "(", "exp", ")", ",", "1", ")"]⟩,
      by rw [hl]; rfl, rfl, by decide, ?_, ?_⟩
    · intro e
      rw [invoke, hl]
      simp [lookup, cdefsTable, MacroDef.expand, substitute, argFor]
    · intro e
      rw [invoke, hl]
      simp [lookup, cdefsTable, MacroDef.expand, substitute, argFor, CExpr.render]
      rfl
  · intro hev
    have hl := includeHeader_installs env "__predict_false" (by decide) hev
    refine ⟨⟨some ["exp"], ["__builtin_expect", "(", "(", "exp", ")", ",", "0", ")"]⟩,
      by rw [hl]; rfl, rfl, by decide, ?_, ?_⟩
    · intro e
      rw [invoke, hl]
      simp [lookup, cdefsTable, MacroDef.expand, substitute, argFor]
    · intro e
      rw [invoke, hl]
      simp [lookup, cdefsTable, MacroDef.expand, substitute, argFor, CExpr.render]
      rfl
  · intro e c σ
    simp [CExpr.eval]


/-- C6 at a concrete input: the hints in a fresh musl translation unit, applied
to the expression `x++ < 3`. -/
theorem branch_hints_witness :
    Event.defined "__predict_true" ∈ (includeHeader freshMusl).trace ∧
    invoke (includeHeader freshMusl).env "__predict_true" [["x", "++", "<", "3"]]
      = some ["__builtin_expect", "(", "(", "x", "++", "<", "3", ")", ",", "1", ")"] ∧
    Event.defined "__predict_false" ∈ (includeHeader freshMusl).trace ∧
    invoke (includeHeader freshMusl).env "__predict_false" [["x", "++", "<", "3"]]
      = some ["__builtin_expect", "(", "(", "x", "++", "<", "3", ")", ",", "0", ")"] :=
  ⟨by decide,
   (by obtain ⟨_, _, _, _, h, _⟩ := (branch_hints freshMusl).1 (by decide)
       exact h ["x", "++", "<", "3"]),
   by decide,
   (by obtain ⟨_, _, _, _, h, _⟩ := (branch_hints freshMusl).2.1 (by decide)
       exact h ["x", "++", "<", "3"])⟩

/-- C7: whenever an inclusion executes the `#define` of a parameterized
attribute macro, the macro has the stated parameters (one for `__aligned`,
`__section` and `__nonnull`, two for `__printflike` and `__scanflike`), each
parameter occurs exactly once in the replacement list, and for all argument
token sequences the invocation expands to the builtin attribute with the
arguments in the same positions and order. -/
theorem parameterized_attributes (env : Env) :
    (Event.defined "__aligned" ∈ (includeHeader env).trace →
      ∃ m, lookup "__aligned" (includeHeader env).env = some m ∧
        m.params = some ["x"] ∧ m.body.count "x" = 1 ∧
        ∀ x : List String, invoke (includeHeader env).env "__aligned" [x]
          = some (["__attribute__", "(", "(", "__aligned__", "("] ++ x ++ [")", ")", ")"])) ∧
    (Event.defined "__section" ∈ (includeHeader env).trace →
      ∃ m, lookup "__section" (includeHeader env).env = some m ∧
        m.params = some ["x"] ∧ m.body.count "x" = 1 ∧
        ∀ x : List String, invoke (includeHeader env).env "__section" [x]
          = some (["__attribute__", "(", "(", "__section__", "("] ++ x ++ [")", ")", ")"])) ∧
    (Event.defined "__nonnull" ∈ (includeHeader env).trace →
      ∃ m, lookup "__nonnull" (includeHeader env).env = some m ∧
        m.params = some ["x"] ∧ m.body.count "x" = 1 ∧
        ∀ x : List String, invoke (includeHeader env).env "__nonnull" [x]
          = some (["__attribute__", "(", "(", "__nonnull__"] ++ x ++ [")", ")"])) ∧
    (Event.defined "__printflike" ∈ (includeHeader env).trace →
      ∃ m, lookup "__printflike" (includeHeader env).env = some m ∧
        m.params = some ["fmtarg", "firstvararg"] ∧
        m.body.count "fmtarg" = 1 ∧ m.body.count "firstvararg" = 1 ∧
        ∀ f v : List String, invoke (includeHeader env).env "__printflike" [f, v]
          = some (["__attribute__", "(", "(", "__format__", "(", "__printf__", ","] ++ f
              ++ [","] ++ v ++ [")", ")", ")"])) ∧
    (Event.defined "__scanflike" ∈ (includeHeader env).trace →
      ∃ m, lookup "__scanflike" (includeHeader env).env = some m ∧
        m.params = some ["fmtarg", "firstvararg"] ∧
        m.body.count "fmtarg" = 1 ∧ m.body.count "firstvararg" = 1 ∧
        ∀ f v : List String, invoke (includeHeader env).env "__scanflike" [f, v]
          = some (["__attribute__", "(", "(", "__format__", "(", "__scanf__", ","] ++ f
              ++ [","] ++ v ++ [")", ")", ")"])) := by
  refine ⟨?_, ?_, ?_, ?_, ?_⟩
  · intro hev
    have hl := includeHeader_installs env "__aligned" (by decide) hev
    refine ⟨⟨some ["x"], gccAttr ["__aligned__", "(", "x", ")"]⟩,
      by rw [hl]; rfl, rfl, by decide, ?_⟩
    intro x
    rw [invoke, hl]
    simp [lookup, cdefsTable, gccAttr, MacroDef.expand, substitute, argFor]
  · intro hev
    have hl := includeHeader_installs env "__section" (by decide) hev
    refine ⟨⟨some ["x"], gccAttr ["__section__", "(", "x", ")"]⟩,
      by rw [hl]; rfl, rfl, by decide, ?_⟩
    intro x
    rw [invoke, hl]
    simp [lookup, cdefsTable, gccAttr, MacroDef.expand, substitute, argFor]
  · intro hev
    have hl := includeHeader_installs env "__nonnull" (by decide) hev
    refine ⟨⟨some ["x"], gccAttr ["__nonnull__", "x"]⟩,
      by rw [hl]; rfl, rfl, by decide, ?_⟩
    intro x
    rw [invoke, hl]
    simp [lookup, cdefsTable, gccAttr, MacroDef.expand, substitute, argFor]
  · intro hev
    have hl := includeHeader_installs env "__printflike" (by decide) hev
    refine ⟨⟨some ["fmtarg", "firstvararg"],
        gccAttr ["__format__", "(", "__printf__", ",", "fmtarg", ",", "firstvararg", ")"]⟩,
      by rw [hl]; rfl, rfl, by decide, by decide, ?_⟩
    intro f v
    rw [invoke, hl]
    simp [lookup, cdefsTable, gccAttr, MacroDef.expand, substitute, argFor]
  · intro hev
    have hl := includeHeader_installs env "__scanflike" (by decide) hev
    refine ⟨⟨some ["fmtarg", "firstvararg"],
        gccAttr ["__format__", "(", "__scanf__", ",", "fmtarg", ",", "firstvararg", ")"]⟩,
      by rw [hl]; rfl, rfl, by decide, by decide, ?_⟩
    intro f v
    rw [invoke, hl]
    simp [lookup, cdefsTable, gccAttr, MacroDef.expand, substitute, argFor]

/-- C7 at a concrete input: `__printflike(2, 3)` and `__aligned(16)` in a fresh
musl translation unit. -/
theorem parameterized_attributes_witness :
    Event.defined "__printflike" ∈ (includeHeader freshMusl).trace ∧
    invoke (includeHeader freshMusl).env "__printflike" [["2"], ["3"]]
      = some ["__attribute__", "(", "(", "__format__", "(", "__printf__", ",", "2", ",", "3",
          ")", ")", ")"] ∧
    Event.defined "__aligned" ∈ (includeHeader freshMusl).trace ∧
    invoke (includeHeader freshMusl).env "__aligned" [["16"]]
      = some ["__attribute__", "(", "(", "__aligned__", "(", "16", ")", ")", ")"] :=
  ⟨by decide,
   (by obtain ⟨_, _, _, _, _, h⟩ :=
         (parameterized_attributes freshMusl).2.2.2.1 (by decide)
       exact h ["2"] ["3"]),
   by decide,
   (by obtain ⟨_, _, _, _, h⟩ := (parameterized_attributes freshMusl).1 (by decide)
       exact h ["16"])⟩

/-- C8: whenever an inclusion executes the `#define` of a name `S` of the
specification's table of zero-argument attributes, `S` is afterwards an
object-like macro whose replacement list is `__attribute__((__A__))` for the
attribute `A` the table gives; the table has thirteen entries, they are exactly
the object-like macros of the header's table, and no two of them have the same
replacement list. -/
theorem zero_arg_attributes :
    (∀ (env : Env) (S A : String), (S, A) ∈ zeroArgAttributes →
      Event.defined S ∈ (includeHeader env).trace →
      lookup S (includeHeader env).env
        = some ⟨none, ["__attribute__", "(", "(", "__" ++ A ++ "__", ")", ")"]⟩) ∧
    zeroArgAttributes.length = 13 ∧
    (∀ p ∈ cdefsTable, p.2.params = none ↔ p.1 ∈ zeroArgAttributes.map Prod.fst) ∧
    (∀ S ∈ zeroArgAttributes.map Prod.fst, isDefined S cdefsTable = true) ∧
    ((cdefsTable.filter (fun p => p.2.params.isNone)).map (fun p => p.2.body)).Nodup ∧
    (zeroArgAttributes.map Prod.snd).Nodup := by
  refine ⟨?_, by decide, by decide, by decide, by decide, by decide⟩
  intro env S A hSA hev
  have key : ∀ p ∈ zeroArgAttributes, isDefined p.1 cdefsTable = true ∧
      lookup p.1 cdefsTable
        = some ⟨none, ["__attribute__", "(", "(", "__" ++ p.2 ++ "__", ")", ")"]⟩ := by
    decide
  obtain ⟨ht, hl⟩ := key (S, A) hSA
  rw [includeHeader_installs env S ht hev]
  exact hl

/-- C8 at a concrete input: `__dead` in a fresh musl translation unit. -/
theorem zero_arg_attributes_witness :
    ("__dead", "noreturn") ∈ zeroArgAttributes ∧
    Event.defined "__dead" ∈ (includeHeader freshMusl).trace ∧
    lookup "__dead" (includeHeader freshMusl).env
      = some ⟨none, ["__attribute__", "(", "(", "__noreturn__", ")", ")"]⟩ :=
  ⟨by decide, by decide,
   zero_arg_attributes.1 freshMusl "__dead" "noreturn" (by decide) (by decide)⟩

end MuslCompat
